import Mathlib

/-!
Verification of the disassembly-generation pipeline of `riscv-parse-elf.cc`
(rv8). The C++ source is shallowly embedded: pointers and unsigned 64-bit
quantities become `Nat` (with explicit `% 2^64` where the machine arithmetic
wraps), signed immediates become `Int`, the `std::map<riscv_ptr,std::string>`
label table becomes a key-sorted association list with the same
insert-or-overwrite and find semantics, and the external instruction decoder
(`riscv_decode_instruction` + `riscv_decode_decompress`, outside this file's
source tree) is an abstract function from a position to a decoded record.
Loops are embedded as fuel-indexed recursions returning `none` when fuel runs
out before the loop condition fails, so that divergence is observable.
-/

namespace RiscvParseElf

/-- Instruction classification after decompression, as used by the
`switch (dec.type)` in `scan_branch_labels`: the two control-transfer forms
`riscv_inst_type_sb` (conditional branch) and `riscv_inst_type_uj`
(unconditional jump), and everything else. -/
inductive InstType where
  | sb : InstType
  | uj : InstType
  | other : InstType
deriving DecidableEq, Repr

/-- Decoder output for one position: the next-instruction position returned
by `riscv_decode_instruction`, and the classification and signed immediate of
the decoded (and decompressed) instruction record. -/
structure Decoded where
  next : Nat
  type : InstType
  imm : Int
deriving DecidableEq, Repr

/-- Modelled from the spec: the external instruction decoder ("given a
program counter, returns a structured instruction record and the program
counter of the next instruction"), folding in `riscv_decode_decompress`.
Its code is not part of the embedded source file. -/
abbrev Decoder : Type := Nat → Decoded

/-- `dec.type` is `riscv_inst_type_sb` or `riscv_inst_type_uj`: the two
cases of the `switch` in `scan_branch_labels` that produce a label. -/
def isBranch : InstType → Bool
  | .sb => true
  | .uj => true
  | .other => false

/-- The label table `std::map<riscv_ptr,std::string> branch_labels`,
embedded as an association list strictly sorted by key (the canonical form a
`std::map` maintains). -/
abbrev LabelTable : Type := List (Nat × String)

/-- `std::map::operator[]` followed by assignment: insert the binding,
overwriting the value if the key is already present, keeping keys sorted. -/
def mapInsert (k : Nat) (v : String) : LabelTable → LabelTable
  | [] => [(k, v)]
  | (k', v') :: t =>
    if k < k' then (k, v) :: (k', v') :: t
    else if k = k' then (k, v) :: t
    else (k', v') :: mapInsert k v t

/-- `std::map::find`: return the mapped value when the key is present,
nothing otherwise. Never mutates the table. -/
def mapFind (k : Nat) : LabelTable → Option String
  | [] => none
  | (k', v') :: t => if k = k' then some v' else mapFind k t

/-- Zero-pad a decimal string on the left to width `w`, as `%06lu` does for
numbers of up to `w` digits. -/
def padZeros (w : Nat) (s : String) : String :=
  String.mk (List.replicate (w - s.length) '0') ++ s

/-- `snprintf(branch_label, 32, "LOC_%06lu", branch_num)`: the synthetic
label text for counter value `n`. -/
def branchLabelName (n : Nat) : String :=
  "LOC_" ++ padZeros 6 (toString n)

/-- `addr = pc - pc_offset + dec.imm` computed in wrapping 64-bit machine
arithmetic (`riscv_ptr` / `uint64_t`). `pcOff` is the mathematical value of
`pc_offset` (it may be negative as an integer, since the C++ value is itself
a wrapped difference `offset - shdr.sh_addr`; folding the mods gives exactly
this expression). -/
def targetAddr (pc : Nat) (pcOff imm : Int) : Nat :=
  (((pc : Int) - pcOff + imm) % (2 ^ 64 : Int)).toNat

/-- The loop of `scan_branch_labels(start, end, pc_offset)`, fuel-indexed.
State: current `pc`, the counter `branch_num` (`num`), and the label table.
Each iteration with `pc < endp` decodes, and on a `sb`/`uj` instruction
formats `LOC_%06lu` from the counter, post-increments the counter, and
assigns the label into the table at the computed target address; then
`pc = next_pc`. Returns `none` when fuel is exhausted while the loop
condition still holds (the C++ loop would keep running). -/
def scanLoopF (D : Decoder) (pcOff : Int) (endp : Nat) :
    Nat → Nat → Nat → LabelTable → Option (LabelTable × Nat)
  | 0, pc, num, labels =>
    if pc < endp then none else some (labels, num)
  | fuel + 1, pc, num, labels =>
    if pc < endp then
      let d := D pc
      if isBranch d.type then
        scanLoopF D pcOff endp fuel d.next (num + 1)
          (mapInsert (targetAddr pc pcOff d.imm) (branchLabelName num) labels)
      else
        scanLoopF D pcOff endp fuel d.next num labels
    else some (labels, num)

/-- The loop of `print_disassembly(start, end, pc_offset, gp)`, fuel-indexed.
Each iteration with `pc < endp` decodes and emits one line
(`riscv_disasm_instruction`); the line is recorded abstractly by the position
it was printed at. Returns `none` when fuel is exhausted while the loop
condition still holds. -/
def printLoopF (D : Decoder) (endp : Nat) :
    Nat → Nat → List Nat → Option (List Nat)
  | 0, pc, lines =>
    if pc < endp then none else some lines
  | fuel + 1, pc, lines =>
    if pc < endp then
      printLoopF D endp fuel (D pc).next (lines ++ [pc])
    else some lines

/-- One ELF section header, restricted to the fields `scan_branch_labels()` /
`print_disassembly()` read: `offset` is the in-memory buffer position
`elf.offset(shdr.sh_offset)`, `size` is `shdr.sh_size`, `addr` is
`shdr.sh_addr`, and `exec` is the `shdr.sh_flags & SHF_EXECINSTR` test. -/
structure Sect where
  offset : Nat
  size : Nat
  addr : Nat
  exec : Bool
deriving DecidableEq, Repr

/-- The body of the per-region call
`scan_branch_labels(offset, offset + shdr.sh_size, offset - shdr.sh_addr)`:
one region's walk, starting the per-region counter `branch_num` at 1 and
keeping only the resulting label table. -/
def scanRegionF (D : Decoder) (fuel : Nat) (s : Sect) (labels : LabelTable) :
    Option LabelTable :=
  (scanLoopF D ((s.offset : Int) - (s.addr : Int)) (s.offset + s.size)
      fuel s.offset 1 labels).map Prod.fst

/-- `scan_branch_labels()` (the zero-argument overload): clear
`branch_labels`, then for each section header with `SHF_EXECINSTR` set, scan
that region into the shared table. `prev` is the table contents before the
call; the first statement of the function discards it (`branch_labels.clear()`). -/
def scan_branch_labels_all (D : Decoder) (fuel : Nat) (shdrs : List Sect)
    (prev : LabelTable) : Option LabelTable :=
  let _ := prev
  let cleared : LabelTable := []
  shdrs.foldlM
    (fun labels s => if s.exec then scanRegionF D fuel s labels else pure labels)
    cleared

/-- One symbol-table entry: an address (`st_value`) and a name. -/
structure Sym where
  addr : Nat
  symName : String
deriving DecidableEq, Repr

/-- Modelled from the spec: `elf_sym_by_addr` (declared in the ELF headers,
outside the embedded source file) returns the exact-address match in the
symbol table, the "first such match if multiple symbols share an address —
tie-break is first encountered in symbol-table order". -/
def elf_sym_by_addr (syms : List Sym) (addr : Nat) : Option Sym :=
  syms.find? (fun s => s.addr == addr)

/-- `symlookup(addr)`: try `elf_sym_by_addr` first and return that symbol's
name (`elf_sym_name`); otherwise `branch_labels.find(addr)`; otherwise null.
The second component of the result is the label table after the call: the
only table operation performed is `find`, which never mutates. -/
def symlookup (syms : List Sym) (labels : LabelTable) (addr : Nat) :
    Option String × LabelTable :=
  match elf_sym_by_addr syms addr with
  | some sym => (some sym.symName, labels)
  | none =>
    match mapFind addr labels with
    | some l => (some l, labels)
    | none => (none, labels)

/-- Modelled from the spec: the escape-code fragments of `riscv-color.h`
(outside the embedded source file); only their concatenations' non-emptiness
matters. `_COLOR_BEGIN` opens an ANSI escape sequence. -/
def _COLOR_BEGIN : String := "\x1b["

/-- Modelled from the spec: closes an ANSI escape sequence. -/
def _COLOR_END : String := "m"

/-- Modelled from the spec: parameter separator inside an escape sequence. -/
def _COLOR_SEP : String := ";"

/-- Modelled from the spec: the attribute-reset escape sequence. -/
def _COLOR_RESET : String := "\x1b[0m"

/-- Modelled from the spec: bold attribute code. -/
def _COLOR_BOLD : String := "1"

/-- Modelled from the spec: underscore attribute code. -/
def _COLOR_UNDERSCORE : String := "4"

/-- Modelled from the spec: white-foreground code. -/
def _COLOR_FG_WHITE : String := "37"

/-- Modelled from the spec: black-background code. -/
def _COLOR_BG_BLACK : String := "40"

/-- Modelled from the spec: magenta-foreground code. -/
def _COLOR_FG_MAGENTA : String := "35"

/-- Modelled from the spec: cyan-foreground code. -/
def _COLOR_FG_CYAN : String := "36"

/-- Modelled from the spec: green-foreground code. -/
def _COLOR_FG_GREEN : String := "32"

/-- Modelled from the spec: yellow-foreground code. -/
def _COLOR_FG_YELLOW : String := "33"

/-- `colorize(type)`: returns the empty string unless `enable_color` is set
and `isatty(fileno(stdout))` holds (`istty`), then dispatches on the semantic
tag by string comparison exactly as the `strcmp` chain does, with a final
empty-string fallback for unknown tags. -/
def colorize (enable_color istty : Bool) (type : String) : String :=
  if !enable_color || !istty then ""
  else if type == "header" then
    _COLOR_BEGIN ++ _COLOR_BOLD ++ _COLOR_SEP ++ _COLOR_FG_WHITE ++ _COLOR_SEP
      ++ _COLOR_BG_BLACK ++ _COLOR_END
  else if type == "title" then
    _COLOR_BEGIN ++ _COLOR_BOLD ++ _COLOR_SEP ++ _COLOR_FG_WHITE ++ _COLOR_SEP
      ++ _COLOR_BG_BLACK ++ _COLOR_END
  else if type == "legend" then
    _COLOR_BEGIN ++ _COLOR_BOLD ++ _COLOR_SEP ++ _COLOR_FG_MAGENTA ++ _COLOR_END
  else if type == "opcode" then
    _COLOR_BEGIN ++ _COLOR_BOLD ++ _COLOR_SEP ++ _COLOR_FG_CYAN ++ _COLOR_END
  else if type == "location" then
    _COLOR_BEGIN ++ _COLOR_FG_GREEN ++ _COLOR_END
  else if type == "address" then
    _COLOR_BEGIN ++ _COLOR_FG_YELLOW ++ _COLOR_END
  else if type == "symbol" then
    _COLOR_BEGIN ++ _COLOR_UNDERSCORE ++ _COLOR_END
  else if type == "reset" then
    _COLOR_RESET
  else ""

/-- `EM_RISCV`, the architecture identifier checked by `run()`. -/
def EM_RISCV : Nat := 243

/-- The indices of the executable section headers, in header order: both
`scan_branch_labels()` and `print_disassembly()` iterate `elf.shdrs` in index
order and act on exactly those with `SHF_EXECINSTR`. -/
def execIdx (shdrs : List Sect) : List Nat :=
  (shdrs.enum.filter (fun p => p.2.exec)).map Prod.fst

/-- A step of the disassembly phase of `run()`, for the ordering argument:
the scanner visiting region `i`, or the printer visiting region `i`. -/
inductive Phase where
  | scanR : Nat → Phase
  | printR : Nat → Phase
deriving DecidableEq, Repr

/-- The order of region visits in the disassembly phase of `run()`:
`scan_branch_labels();` runs its whole loop over the executable sections,
then `print_disassembly();` runs its whole loop over the same sections. -/
def disasmPhaseTrace (shdrs : List Sect) : List Phase :=
  (execIdx shdrs).map Phase.scanR ++ (execIdx shdrs).map Phase.printR

/-- The five selectable output sections of `run()`. -/
inductive OutSection where
  | elfHeader : OutSection
  | sectionHeaders : OutSection
  | programHeaders : OutSection
  | symbolTable : OutSection
  | disassembly : OutSection
deriving DecidableEq, Repr

/-- The boolean members of `struct riscv_parse_elf` set during command-line
processing (`disassebly` keeps the source's spelling). -/
structure Flags where
  enable_color : Bool
  elf_header : Bool
  section_headers : Bool
  program_headers : Bool
  symbol_table : Bool
  disassebly : Bool
  help_or_error : Bool
deriving DecidableEq, Repr

/-- The sequence of output sections `run()` prints after loading: each flag
gates its section, and the disassembly block additionally requires
`elf.ehdr.e_machine == EM_RISCV`. -/
def runSections (fl : Flags) (machine : Nat) : List OutSection :=
  (if fl.elf_header then [OutSection.elfHeader] else []) ++
  (if fl.section_headers then [OutSection.sectionHeaders] else []) ++
  (if fl.program_headers then [OutSection.programHeaders] else []) ++
  (if fl.symbol_table then [OutSection.symbolTable] else []) ++
  (if fl.disassebly && machine == EM_RISCV then [OutSection.disassembly] else [])

/-- `parse_commandline` after `cmdline_option::process_options` has run:
`fl` holds the flags the option callbacks produced, `freeArgs` the non-option
arguments (`result.first`) and `ok` the success flag (`result.second`).
Returns the final flags and `some filename` when control reaches
`filename = result.first[0]`, or `none` when the usage message is printed and
`exit(9)` is called. -/
def parse_commandline (fl : Flags) (freeArgs : List String) (ok : Bool) :
    Flags × Option String :=
  let fl1 :=
    if !ok then { fl with help_or_error := true }
    else if freeArgs.length ≠ 1 then { fl with help_or_error := true }
    else fl
  let noSec := !fl1.elf_header && !fl1.section_headers && !fl1.program_headers
      && !fl1.symbol_table && !fl1.disassebly
  let fl2 := { fl1 with help_or_error := fl1.help_or_error || noSec }
  if fl2.help_or_error then (fl2, none) else (fl2, some (freeArgs.headD ""))

/-- Observable events of `main`: printing the usage text, terminating with an
exit status, loading the container file (`elf.load(filename)` at the top of
`run()`), and emitting one output section. -/
inductive MainEv where
  | usageMsg : MainEv
  | exitCode : Nat → MainEv
  | loadFile : String → MainEv
  | emit : OutSection → MainEv
deriving DecidableEq, Repr

/-- The event trace of `main`: `parse_commandline` either prints usage and
exits with status 9 (before `run()` is ever entered), or yields a filename,
after which `run()` loads the file and prints each enabled section; `main`
then returns 0. -/
def mainTrace (fl : Flags) (freeArgs : List String) (ok : Bool)
    (machine : Nat) : List MainEv :=
  match parse_commandline fl freeArgs ok with
  | (_, none) => [MainEv.usageMsg, MainEv.exitCode 9]
  | (_, some f) =>
    MainEv.loadFile f :: (runSections (parse_commandline fl freeArgs ok).1 machine).map MainEv.emit
      ++ [MainEv.exitCode 0]

/-! Shared helper lemmas and concrete example inputs. -/

/-- Inserting a binding makes `find` on that key return the new value,
whether or not the key was present before: `map[k] = v` semantics. -/
theorem mapFind_mapInsert_self (k : Nat) (v : String) (t : LabelTable) :
    mapFind k (mapInsert k v t) = some v := by
  induction t with
  | nil => simp [mapInsert, mapFind]
  | cons hd tl ih =>
    obtain ⟨k', v'⟩ := hd
    by_cases h1 : k < k'
    · simp [mapInsert, mapFind, h1]
    · by_cases h2 : k = k'
      · simp [mapInsert, mapFind, h1, h2]
      · simp [mapInsert, mapFind, h1, h2, ih]

/-- A two-instruction region at positions 0 and 4: an unconditional jump at
0 with immediate 0 and an unconditional jump at 4 with immediate −4, both of
whose targets (with `pc_offset` 0) are address 0. -/
def exDecTwoBranch : Decoder := fun pc =>
  if pc = 0 then ⟨4, InstType.uj, 0⟩
  else if pc = 4 then ⟨8, InstType.uj, -4⟩
  else ⟨pc + 4, InstType.other, 0⟩

/-- A decoder that reports no forward progress at every position. -/
def exDecStuck : Decoder := fun pc => ⟨pc, InstType.other, 0⟩

/-- A decoder that always advances by 4 and never decodes a branch. -/
def exDecAdv : Decoder := fun pc => ⟨pc + 4, InstType.other, 0⟩

/-! Claim theorems. -/

/-- C1 (counterexample): in the two-branch region, both jumps target address
0. After the scan the table maps 0 to `LOC_000002` with the counter at 3: the
second branch overwrote the existing entry's name and still incremented the
counter, whereas the claim predicts the entry stays `LOC_000001` with the
counter at 2. -/
theorem scanLoopF_C1_counterexample :
    scanLoopF exDecTwoBranch 0 8 2 0 1 [] = some ([(0, branchLabelName 2)], 3) ∧
    scanLoopF exDecTwoBranch 0 8 2 0 1 [] ≠ some ([(0, branchLabelName 1)], 2) ∧
    branchLabelName 2 ≠ branchLabelName 1 := by
  refine ⟨rfl, ?_, ?_⟩ <;> decide

/-- C1 (amended): when the scan reaches a branch or jump whose computed
target address is already a key of the label table, it nevertheless formats a
fresh synthetic name from the per-region counter, increments the counter,
and assigns the name at that address, overwriting the existing entry; the
subsequent iterations continue from that state. -/
theorem scanLoopF_branch_overwrites (D : Decoder) (pcOff : Int)
    (endp fuel pc num : Nat) (t : LabelTable) (v : String)
    (hpc : pc < endp) (hbr : isBranch (D pc).type = true)
    (hkey : mapFind (targetAddr pc pcOff (D pc).imm) t = some v) :
    scanLoopF D pcOff endp (fuel + 1) pc num t =
      scanLoopF D pcOff endp fuel (D pc).next (num + 1)
        (mapInsert (targetAddr pc pcOff (D pc).imm) (branchLabelName num) t) ∧
    mapFind (targetAddr pc pcOff (D pc).imm)
        (mapInsert (targetAddr pc pcOff (D pc).imm) (branchLabelName num) t) =
      some (branchLabelName num) := by
  constructor
  · simp [scanLoopF, hpc, hbr]
  · exact mapFind_mapInsert_self _ _ _

/-- C1 (witness): the overwrite theorem applied at the second instruction of
the two-branch region, where address 0 is already a key. -/
theorem scanLoopF_branch_overwrites_witness :
    scanLoopF exDecTwoBranch 0 8 1 4 2 [(0, branchLabelName 1)] =
      scanLoopF exDecTwoBranch 0 8 0 8 3
        (mapInsert 0 (branchLabelName 2) [(0, branchLabelName 1)]) ∧
    mapFind 0 (mapInsert 0 (branchLabelName 2) [(0, branchLabelName 1)]) =
      some (branchLabelName 2) := by
  have h := scanLoopF_branch_overwrites exDecTwoBranch 0 8 0 4 2
    [(0, branchLabelName 1)] (branchLabelName 1) (by decide) (by decide) (by decide)
  exact h

/-- C3: at every branch or jump instruction the scanner reaches, the address
it uses as the label-table key is `targetAddr`, and when the mathematical
value `pc − pc_offset + imm` lies in the 64-bit range, that key equals
`pc − pc_offset + imm` exactly as the claim states. -/
theorem scanLoopF_target_address (D : Decoder) (pcOff : Int)
    (endp fuel pc num : Nat) (t : LabelTable)
    (hpc : pc < endp) (hbr : isBranch (D pc).type = true)
    (h0 : 0 ≤ (pc : Int) - pcOff + (D pc).imm)
    (h1 : (pc : Int) - pcOff + (D pc).imm < 2 ^ 64) :
    scanLoopF D pcOff endp (fuel + 1) pc num t =
      scanLoopF D pcOff endp fuel (D pc).next (num + 1)
        (mapInsert (targetAddr pc pcOff (D pc).imm) (branchLabelName num) t) ∧
    (targetAddr pc pcOff (D pc).imm : Int) = (pc : Int) - pcOff + (D pc).imm := by
  constructor
  · simp [scanLoopF, hpc, hbr]
  · unfold targetAddr
    rw [Int.emod_eq_of_lt h0 h1]
    exact Int.toNat_of_nonneg h0

/-- C3 (witness): the target-address theorem applied at the second
instruction of the two-branch region: `4 − 0 + (−4) = 0`. -/
theorem scanLoopF_target_address_witness :
    scanLoopF exDecTwoBranch 0 8 1 4 2 [(0, branchLabelName 1)] =
      scanLoopF exDecTwoBranch 0 8 0 8 3
        (mapInsert (targetAddr 4 0 (-4)) (branchLabelName 2) [(0, branchLabelName 1)]) ∧
    (targetAddr 4 0 (-4) : Int) = (4 : Int) - 0 + (-4) := by
  have h := scanLoopF_target_address exDecTwoBranch 0 8 0 4 2
    [(0, branchLabelName 1)] (by decide) (by decide) (by decide) (by decide)
  exact h

/-- The scan walk finishes (returns `some`) whenever the decoder advances
past every position and the fuel covers the region length. -/
theorem scanLoopF_isSome_of_advancing (D : Decoder) (pcOff : Int) (endp : Nat)
    (hAdv : ∀ p, p < (D p).next) :
    ∀ fuel pc num t, endp ≤ pc + fuel →
      (scanLoopF D pcOff endp fuel pc num t).isSome = true := by
  intro fuel
  induction fuel with
  | zero =>
    intro pc num t hle
    have : ¬ pc < endp := by omega
    simp [scanLoopF, this]
  | succ k ih =>
    intro pc num t hle
    by_cases hpc : pc < endp
    · have hnext : endp ≤ (D pc).next + k := by
        have := hAdv pc
        omega
      by_cases hbr : isBranch (D pc).type = true
      · simpa [scanLoopF, hpc, hbr] using ih (D pc).next (num + 1)
          (mapInsert (targetAddr pc pcOff (D pc).imm) (branchLabelName num) t) hnext
      · simpa [scanLoopF, hpc, hbr] using ih (D pc).next num t hnext
    · simp [scanLoopF, hpc]

/-- The print walk finishes (returns `some`) whenever the decoder advances
past every position and the fuel covers the region length. -/
theorem printLoopF_isSome_of_advancing (D : Decoder) (endp : Nat)
    (hAdv : ∀ p, p < (D p).next) :
    ∀ fuel pc lines, endp ≤ pc + fuel →
      (printLoopF D endp fuel pc lines).isSome = true := by
  intro fuel
  induction fuel with
  | zero =>
    intro pc lines hle
    have : ¬ pc < endp := by omega
    simp [printLoopF, this]
  | succ k ih =>
    intro pc lines hle
    by_cases hpc : pc < endp
    · have hnext : endp ≤ (D pc).next + k := by
        have := hAdv pc
        omega
      simpa [printLoopF, hpc] using ih (D pc).next (lines ++ [pc]) hnext
    · simp [printLoopF, hpc]

/-- C2 (counterexample): with a decoder that reports no forward progress on
a one-byte region, no amount of fuel completes the scan walk: the `while`
loop in `scan_branch_labels` never exits and no error is reported, so the
walk does not terminate. -/
theorem scanLoopF_C2_counterexample :
    ¬ ∃ fuel, (scanLoopF exDecStuck 0 1 fuel 0 1 []).isSome = true := by
  rintro ⟨fuel, h⟩
  have hall : ∀ n, scanLoopF exDecStuck 0 1 n 0 1 [] = none := by
    intro n
    induction n with
    | zero => simp [scanLoopF]
    | succ k ih => simpa [scanLoopF, exDecStuck, isBranch] using ih
  rw [hall fuel] at h
  simp at h

/-- C2 (amended): the loops contain no non-advance check, so termination
holds exactly under the hypothesis that the decoder advances past every
position; then both the scan walk and the print walk over any region finish
once the fuel covers the region's extent. -/
theorem walks_terminate_of_advancing (D : Decoder) (pcOff : Int)
    (start size num : Nat) (t : LabelTable) (lines : List Nat)
    (hAdv : ∀ p, p < (D p).next) :
    (scanLoopF D pcOff (start + size) size start num t).isSome = true ∧
    (printLoopF D (start + size) size start lines).isSome = true :=
  ⟨scanLoopF_isSome_of_advancing D pcOff (start + size) hAdv size start num t
      (by omega),
   printLoopF_isSome_of_advancing D (start + size) hAdv size start lines
      (by omega)⟩

/-- C2 (witness): with the always-advancing decoder, both walks over the
region `[0, 8)` finish. -/
theorem walks_terminate_of_advancing_witness :
    (scanLoopF exDecAdv 0 8 8 0 1 []).isSome = true ∧
    (printLoopF exDecAdv 8 8 0 []).isSome = true := by
  have h := walks_terminate_of_advancing exDecAdv 0 0 8 1 [] []
    (fun p => by simp [exDecAdv])
  simpa using h

/-- C4: `symlookup` returns the symbol-table name whenever an exact-address
symbol match exists (so a symbol always beats a synthetic label, even when
the address is also a label key); with no symbol match it returns exactly
what `branch_labels.find` yields; with neither it returns no name. -/
theorem symlookup_precedence (syms : List Sym) (labels : LabelTable) (addr : Nat) :
    (∀ s, elf_sym_by_addr syms addr = some s →
      symlookup syms labels addr = (some s.symName, labels)) ∧
    (elf_sym_by_addr syms addr = none →
      symlookup syms labels addr = (mapFind addr labels, labels)) ∧
    (elf_sym_by_addr syms addr = none → mapFind addr labels = none →
      symlookup syms labels addr = (none, labels)) := by
  refine ⟨fun s hs => ?_, fun hn => ?_, fun hn hl => ?_⟩
  · simp [symlookup, hs]
  · cases hf : mapFind addr labels <;> simp [symlookup, hn, hf]
  · simp [symlookup, hn, hl]

/-- C4 (witness): address 5 is both the address of symbol `foo` and a label
key; the resolver returns `foo`, not the label. -/
theorem symlookup_precedence_witness :
    symlookup [⟨5, "foo"⟩] [(5, branchLabelName 1)] 5 =
      (some "foo", [(5, branchLabelName 1)]) :=
  (symlookup_precedence [⟨5, "foo"⟩] [(5, branchLabelName 1)] 5).1 ⟨5, "foo"⟩ rfl

/-- C9: a lookup through `symlookup` leaves the label table unchanged, and
on an address that is neither a symbol nor a label key it returns no name and
inserts nothing: the table operation is `find`, never `operator[]`. -/
theorem symlookup_frame (syms : List Sym) (labels : LabelTable) (addr : Nat) :
    (symlookup syms labels addr).2 = labels ∧
    (elf_sym_by_addr syms addr = none → mapFind addr labels = none →
      symlookup syms labels addr = (none, labels)) := by
  constructor
  · unfold symlookup
    cases h : elf_sym_by_addr syms addr
    · cases hf : mapFind addr labels <;> simp
    · simp
  · intro hn hl
    simp [symlookup, hn, hl]

/-- C9 (witness): looking up address 7, which is neither a symbol address
nor a label key, returns no name and the table is exactly as before. -/
theorem symlookup_frame_witness :
    symlookup [⟨5, "foo"⟩] [(0, branchLabelName 1)] 7 =
      (none, [(0, branchLabelName 1)]) :=
  (symlookup_frame [⟨5, "foo"⟩] [(0, branchLabelName 1)] 7).2 rfl rfl

/-- C5: in the disassembly phase of `run()`, every scanner visit to a region
occurs strictly before every printer visit to a region: the label table is
fully populated over all executable regions before printing consults it. -/
theorem scan_before_print (shdrs : List Sect) (k1 k2 i j : Nat)
    (h1 : (disasmPhaseTrace shdrs)[k1]? = some (Phase.scanR i))
    (h2 : (disasmPhaseTrace shdrs)[k2]? = some (Phase.printR j)) :
    k1 < k2 := by
  unfold disasmPhaseTrace at h1 h2
  have hL1 : k1 < ((execIdx shdrs).map Phase.scanR).length := by
    by_contra hk
    rw [List.getElem?_append_right (by omega)] at h1
    rw [List.getElem?_map] at h1
    cases h : ((execIdx shdrs))[k1 - ((execIdx shdrs).map Phase.scanR).length]? <;>
      simp [h] at h1
  have hL2 : ¬ k2 < ((execIdx shdrs).map Phase.scanR).length := by
    intro hk
    rw [List.getElem?_append, if_pos hk] at h2
    rw [List.getElem?_map] at h2
    cases h : ((execIdx shdrs))[k2]? <;> simp [h] at h2
  omega

/-- C5 (witness): with two executable sections, the trace is scan 0, scan 1,
print 0, print 1; the scan visit to region 0 (position 0) precedes the print
visit to region 0 (position 2). -/
theorem scan_before_print_witness :
    (disasmPhaseTrace [⟨0, 4, 0, true⟩, ⟨4, 4, 4, true⟩])[0]? =
      some (Phase.scanR 0) ∧
    (disasmPhaseTrace [⟨0, 4, 0, true⟩, ⟨4, 4, 4, true⟩])[2]? =
      some (Phase.printR 0) ∧
    (0 : Nat) < 2 :=
  ⟨rfl, rfl, scan_before_print [⟨0, 4, 0, true⟩, ⟨4, 4, 4, true⟩] 0 2 0 0 rfl rfl⟩

/-- C6: when the container's `e_machine` is not `EM_RISCV`, `run()` prints
no disassembly section and reports no error, while each of the four other
sections is printed exactly when its flag is set. -/
theorem runSections_arch_gating (fl : Flags) (machine : Nat)
    (h : machine ≠ EM_RISCV) :
    OutSection.disassembly ∉ runSections fl machine ∧
    (OutSection.elfHeader ∈ runSections fl machine ↔ fl.elf_header = true) ∧
    (OutSection.sectionHeaders ∈ runSections fl machine ↔ fl.section_headers = true) ∧
    (OutSection.programHeaders ∈ runSections fl machine ↔ fl.program_headers = true) ∧
    (OutSection.symbolTable ∈ runSections fl machine ↔ fl.symbol_table = true) := by
  have hb : (machine == EM_RISCV) = false := by
    simpa using h
  obtain ⟨c, eh, sh, ph, st, dis, he⟩ := fl
  cases eh <;> cases sh <;> cases ph <;> cases st <;> cases dis <;>
    simp [runSections, hb]

/-- C6 (witness): with every section requested and `e_machine = 0`, the
disassembly section is absent while the ELF-header section is present. -/
theorem runSections_arch_gating_witness :
    OutSection.disassembly ∉ runSections ⟨true, true, true, true, true, true, false⟩ 0 ∧
    OutSection.elfHeader ∈ runSections ⟨true, true, true, true, true, true, false⟩ 0 := by
  have h := runSections_arch_gating ⟨true, true, true, true, true, true, false⟩ 0
    (by decide)
  exact ⟨h.1, h.2.1.mpr rfl⟩

/-- C7: `colorize` yields the empty string for every tag as soon as the
color flag is off or stdout is not a terminal, and conversely a non-empty
result can arise only with the flag on and a terminal attached — so output
written through it carries no escape bytes in the gated-off cases. -/
theorem colorize_gating (e t : Bool) (type : String) :
    ((e = false ∨ t = false) → colorize e t type = "") ∧
    (colorize e t type ≠ "" → e = true ∧ t = true) := by
  cases e <;> cases t <;> simp [colorize]

/-- C7 (witness): with the flag off and a terminal attached, the `opcode`
tag yields the empty string. -/
theorem colorize_gating_witness : colorize false true "opcode" = "" :=
  (colorize_gating false true "opcode").1 (Or.inl rfl)

/-- C8: the scanner clears the label table before scanning, so a second run
of `scan_branch_labels()` from the state the first run produced returns the
identical table: same address keys, same synthetic names. -/
theorem scan_branch_labels_all_idempotent (D : Decoder) (fuel : Nat)
    (shdrs : List Sect) (prev t : LabelTable)
    (h : scan_branch_labels_all D fuel shdrs prev = some t) :
    scan_branch_labels_all D fuel shdrs t = some t := by
  have hconst : scan_branch_labels_all D fuel shdrs t =
      scan_branch_labels_all D fuel shdrs prev := rfl
  rw [hconst, h]

/-- C8 (witness): scanning the two-branch region twice: the first run (from
a junk table) gives the table mapping 0 to `LOC_000002`; running again from
that table gives the same table. -/
theorem scan_branch_labels_all_idempotent_witness :
    scan_branch_labels_all exDecTwoBranch 8 [⟨0, 8, 0, true⟩]
      [(0, branchLabelName 2)] = some [(0, branchLabelName 2)] :=
  scan_branch_labels_all_idempotent exDecTwoBranch 8 [⟨0, 8, 0, true⟩]
    [(99, "junk")] [(0, branchLabelName 2)] (by decide)

/-- C10: whenever option processing fails, or the free-argument count is not
exactly one, or no output section was requested, `main`'s trace is exactly
the usage message followed by termination with status 9: in particular it
contains no `loadFile` event, so the container is never loaded or read. -/
theorem mainTrace_usage_exit (fl : Flags) (freeArgs : List String) (ok : Bool)
    (machine : Nat)
    (h : ok = false ∨ freeArgs.length ≠ 1 ∨
      (fl.elf_header = false ∧ fl.section_headers = false ∧
       fl.program_headers = false ∧ fl.symbol_table = false ∧
       fl.disassebly = false)) :
    mainTrace fl freeArgs ok machine = [MainEv.usageMsg, MainEv.exitCode 9] := by
  obtain ⟨c, eh, sh, ph, st, dis, he⟩ := fl
  rcases h with h | h | h
  · subst h
    simp [mainTrace, parse_commandline]
  · cases ok <;> simp [mainTrace, parse_commandline, h]
  · obtain ⟨h1, h2, h3, h4, h5⟩ := h
    simp only at h1 h2 h3 h4 h5
    subst h1; subst h2; subst h3; subst h4; subst h5
    cases ok <;> by_cases hl : freeArgs.length = 1 <;>
      simp [mainTrace, parse_commandline, hl]

/-- C10 (witness): with all flags off (no section requested) and a single
file argument, the program prints usage and exits with status 9 without a
`loadFile` event. -/
theorem mainTrace_usage_exit_witness :
    mainTrace ⟨false, false, false, false, false, false, false⟩ ["a.elf"] true 243 =
      [MainEv.usageMsg, MainEv.exitCode 9] :=
  mainTrace_usage_exit ⟨false, false, false, false, false, false, false⟩ ["a.elf"]
    true 243 (Or.inr (Or.inr ⟨rfl, rfl, rfl, rfl, rfl⟩))

end RiscvParseElf
